import Mathlib

/-
Verification development for BabyMonkeyAGI.py: a shallow embedding of the
task-scheduling and exploration engine (Task Store, Thought Tree, traversal,
task generation, prioritization parsing, and the persistence step of the
driver loop), together with theorems settling the frozen claims.

External collaborators (the completion oracle, the embedding service and the
vector index) stay abstract: oracle replies enter the model as plain string
parameters, and the upsert call is modelled by the record and keyword
arguments the code builds for it.
-/

namespace BabyMonkeyAGI

/-- Task identifiers as they occur at runtime: integers produced by
next_task_id (module init and the generation step of the driver loop), and
strings parsed out of the oracle reply by prioritization_agent. -/
inductive TaskId where
  | int (n : Nat)
  | str (s : String)
deriving DecidableEq, Repr

/-- A task dictionary: keys task_id and task_name. -/
structure Task where
  task_id : TaskId
  task_name : String
deriving DecidableEq, Repr

/-- State of SingleTaskListStorage: the deque of tasks and the id counter. -/
structure SingleTaskListStorage where
  tasks : List Task
  task_id_counter : Nat
deriving DecidableEq, Repr

/-- append: adds the task at the tail of the deque. -/
def SingleTaskListStorage.append (s : SingleTaskListStorage) (t : Task) :
    SingleTaskListStorage :=
  { s with tasks := s.tasks ++ [t] }

/-- replace: the whole deque is rebuilt from the given list; the counter is
not touched. -/
def SingleTaskListStorage.replace (s : SingleTaskListStorage) (ts : List Task) :
    SingleTaskListStorage :=
  { s with tasks := ts }

/-- popleft: removes and returns the head of the deque; popping an empty
deque raises IndexError in Python, modelled as an error value. -/
def SingleTaskListStorage.popleft (s : SingleTaskListStorage) :
    Except String (Task × SingleTaskListStorage) :=
  match s.tasks with
  | [] => Except.error "IndexError"
  | t :: rest => Except.ok (t, { s with tasks := rest })

/-- is_empty: `False if self.tasks else True`. -/
def SingleTaskListStorage.is_empty (s : SingleTaskListStorage) : Bool :=
  s.tasks.isEmpty

/-- next_task_id: increments the counter and returns it, paired with the
updated storage. -/
def SingleTaskListStorage.next_task_id (s : SingleTaskListStorage) :
    Nat × SingleTaskListStorage :=
  (s.task_id_counter + 1, { s with task_id_counter := s.task_id_counter + 1 })

/-- get_task_names: the names of the stored tasks in deque order. -/
def SingleTaskListStorage.get_task_names (s : SingleTaskListStorage) : List String :=
  s.tasks.map Task.task_name

/-- A Thought node: its task_name and its ordered children. The parent
field of the Python class is a non-owning back reference that is written but
never read by any of the modelled operations, so it is omitted here. -/
inductive Thought where
  | mk (task_name : String) (children : List Thought)

/-- The task_name field of a Thought. -/
def Thought.task_name : Thought → String
  | .mk n _ => n

/-- The children field of a Thought. -/
def Thought.children : Thought → List Thought
  | .mk _ cs => cs

/-- add_child: appends the child at the end of the children list. -/
def Thought.add_child : Thought → Thought → Thought
  | .mk n cs, child => .mk n (cs ++ [child])

/-- A ThoughtTree: a single optional root. -/
structure ThoughtTree where
  root : Option Thought

/-- add_thought with parent=None: builds Thought(task_name) and assigns it
to self.root unconditionally (the source has no existing-root check), then
returns the new thought. -/
def ThoughtTree.add_thought_noparent (_t : ThoughtTree) (task_name : String) :
    ThoughtTree × Thought :=
  let new_thought := Thought.mk task_name []
  ({ root := some new_thought }, new_thought)

/-- is_thought_tree_empty: the tree is empty when it has no root. -/
def is_thought_tree_empty (t : ThoughtTree) : Bool :=
  t.root.isNone

/-- The task_map lookup of generate_tasks_based_on_thought, with default []
as in dict.get. -/
def task_map_get (name : String) : List String :=
  if name = "INITIAL_TASK" then
    ["Define problem", "Gather resources", "Develop plan"]
  else if name = "Define problem" then
    ["Identify key components", "Determine constraints", "Set goals"]
  else if name = "Gather resources" then
    ["Search for information", "Organize resources", "Evaluate resources"]
  else if name = "Develop plan" then
    ["Outline steps", "Assign responsibilities", "Set timeline"]
  else []

/-- generate_tasks_based_on_thought: deterministic lookup on the task_name
of the given thought. -/
def generate_tasks_based_on_thought (th : Thought) : List String :=
  task_map_get th.task_name

/-- task_creation_agent: reads current_thought := thought_tree.root (not the
thought selected by the loop), generates names from it, and adds each name
as a child of the root via add_thought(name, parent=current_thought), which
appends Thought(name) to the children of the root. The objective, result
and task_description parameters of the Python function are unused. Reading
task_name of a missing root would raise AttributeError. The source branch
`if new_tasks is None: return []` is dead because dict.get with default []
never yields None. -/
def task_creation_agent (thought_tree : ThoughtTree) :
    Except String (List String × ThoughtTree) :=
  match thought_tree.root with
  | none => Except.error "AttributeError"
  | some current_thought =>
    let new_tasks := generate_tasks_based_on_thought current_thought
    Except.ok (new_tasks,
      { root := some (new_tasks.foldl
          (fun cur nm => cur.add_child (Thought.mk nm [])) current_thought) })

mutual

/-- Size of a thought: the number of its nodes. -/
def thoughtSize : Thought → Nat
  | .mk _ cs => 1 + thoughtSizeList cs

/-- Sum of the sizes of a list of thoughts. -/
def thoughtSizeList : List Thought → Nat
  | [] => 0
  | c :: cs => thoughtSize c + thoughtSizeList cs

end

/-- Fuel-indexed measure of a traversal stack: an upper bound on the number
of pops the while loop of get_next_thought can perform from this stack. -/
def stackMeasure : List (Option Thought) → Nat
  | [] => 0
  | none :: rest => 1 + stackMeasure rest
  | some th :: rest => thoughtSize th + stackMeasure rest

/-- The while loop of get_next_thought. The stack is kept top-first: pop
takes the head; `stack.extend(thought.children)` makes the last child the
next pop, hence the reversed children are pushed in front. Popping the None
that an empty tree put on the stack evaluates None.children and raises
AttributeError. The fuel argument only bounds the iteration count; the
wrapper always supplies enough. -/
def gntLoopF : Nat → List (Option Thought) → Except String (Option Thought)
  | _, [] => Except.ok none
  | 0, _ :: _ => Except.error "OutOfFuel"
  | _ + 1, none :: _ => Except.error "AttributeError"
  | fuel + 1, some (.mk n cs) :: rest =>
    match cs with
    | [] => Except.ok (some (Thought.mk n []))
    | c :: cs2 => gntLoopF fuel (((c :: cs2).map some).reverse ++ rest)

/-- get_next_thought: stack-based depth-first traversal starting from
[thought_tree.root]. -/
def get_next_thought (t : ThoughtTree) : Except String (Option Thought) :=
  gntLoopF (stackMeasure [t.root]) [t.root]

/-- Specification-side characterization of the traversal: repeatedly descend
into the most recently added (last) child until a leaf is reached. -/
def lastDescendF : Nat → Thought → Thought
  | 0, th => th
  | fuel + 1, .mk n cs =>
    match cs.getLast? with
    | none => Thought.mk n cs
    | some c => lastDescendF fuel c

/-- The leaf reached from a thought by always taking the last child. -/
def lastDescend (th : Thought) : Thought :=
  lastDescendF (thoughtSize th) th

/-- All task names occurring in a thought, the root name first. -/
def namesOfF : Nat → Thought → List String
  | 0, _ => []
  | fuel + 1, .mk n cs => n :: (cs.map (namesOfF fuel)).flatten

/-- All task names occurring in a thought. -/
def namesOf (th : Thought) : List String :=
  namesOfF (thoughtSize th) th

/-- Module initialization of the task storage: a fresh storage, then the
initial task {task_id: next_task_id(), task_name: INITIAL_TASK} appended
(next_task_id returns 1 on the fresh counter). -/
def initial_storage (initial_task : String) : SingleTaskListStorage :=
  let s0 : SingleTaskListStorage := { tasks := [], task_id_counter := 0 }
  let p := s0.next_task_id
  p.2.append { task_id := TaskId.int p.1, task_name := initial_task }

/-- Start of main: an empty tree seeded with add_thought(INITIAL_TASK). -/
def initial_tree (initial_task : String) : ThoughtTree :=
  (ThoughtTree.add_thought_noparent { root := none } initial_task).1

/-- Step 3 of the loop body after task_creation_agent: for each generated
name, allocate next_task_id and append {task_name, task_id} to the store. -/
def append_generated (s : SingleTaskListStorage) (names : List String) :
    SingleTaskListStorage :=
  names.foldl
    (fun st nm =>
      let p := st.next_task_id
      p.2.append { task_id := TaskId.int p.1, task_name := nm }) s

/-- One driver-loop iteration restricted to its store- and tree-affecting
steps 1 to 4: select the next thought, pop the head task, run
task_creation_agent, and append the generated tasks. The execution call and
the upsert touch neither structure and are modelled separately; step 5
(prioritization) is modelled by prioritization_agent. -/
def loop_iteration_gen (store : SingleTaskListStorage) (tree : ThoughtTree) :
    Except String (Option Thought × Task × SingleTaskListStorage × ThoughtTree) :=
  match get_next_thought tree with
  | Except.error e => Except.error e
  | Except.ok current =>
    match store.popleft with
    | Except.error e => Except.error e
    | Except.ok (task, store1) =>
      match task_creation_agent tree with
      | Except.error e => Except.error e
      | Except.ok (new_tasks, tree1) =>
        Except.ok (current, task, append_generated store1 new_tasks, tree1)

/-- The tasks that append_generated builds when the counter starts at base:
successive integer ids base+1, base+2, and so on. -/
def tasksFor (base : Nat) : List String → List Task
  | [] => []
  | nm :: rest => { task_id := TaskId.int (base + 1), task_name := nm } :: tasksFor (base + 1) rest

/-- Python whitespace characters stripped by str.strip (ASCII range). -/
def pyIsSpace (c : Char) : Bool :=
  c = ' ' || c = '\t' || c = '\n' || c = '\r' || c = '\x0b' || c = '\x0c'

/-- str.strip: drop whitespace from both ends. -/
def pystrip (s : List Char) : List Char :=
  ((s.dropWhile pyIsSpace).reverse.dropWhile pyIsSpace).reverse

/-- str.split with separator "." and maxsplit 1: one part when no dot occurs,
otherwise the part before the first dot and everything after it. -/
def splitDotOnce (s : List Char) : List (List Char) :=
  match s.dropWhile (fun c => !(c = '.')) with
  | [] => [s]
  | _ :: rest => [s.takeWhile (fun c => !(c = '.')), rest]

/-- str.split with separator a newline: splits at every newline, keeping
empty pieces. -/
def splitNl : List Char → List (List Char)
  | [] => [[]]
  | c :: rest =>
    if c = '\n' then [] :: splitNl rest
    else
      match splitNl rest with
      | l :: ls => (c :: l) :: ls
      | [] => [[c]]

/-- Body of the parsing for-loop of prioritization_agent: strip the line,
split it on the first dot, and when that yields exactly two parts append
{task_id, task_name} with both parts stripped; otherwise keep the
accumulator unchanged (the line is silently dropped). -/
def prioritization_step (acc : List Task) (ts : List Char) : List Task :=
  match splitDotOnce (pystrip ts) with
  | [p1, p2] =>
    acc ++ [{ task_id := TaskId.str (String.mk (pystrip p1)),
              task_name := String.mk (pystrip p2) }]
  | _ => acc

/-- The parsing loop of prioritization_agent: split the reply into lines
(the source guards the split with a containment test) and run the loop body
over them. -/
def prioritization_parse (response : String) : List Task :=
  let new_tasks :=
    if response.data.contains '\n' then splitNl response.data else [response.data]
  new_tasks.foldl prioritization_step []

/-- prioritization_agent: reads the task names (for the prompt), consumes one
next_task_id (also only for the prompt), sends the prompt to the oracle, and
replaces the whole store with the parsed reply. The oracle reply is the
response parameter. -/
def prioritization_agent (store : SingleTaskListStorage) (response : String) :
    SingleTaskListStorage :=
  let p := store.next_task_id
  p.2.replace (prioritization_parse response)

/-- Specification-side line parser: the task a single reply line yields, if
any. -/
def parse_line (ts : List Char) : Option Task :=
  match splitDotOnce (pystrip ts) with
  | [p1, p2] =>
    some { task_id := TaskId.str (String.mk (pystrip p1)),
           task_name := String.mk (pystrip p2) }
  | _ => none

/-- The sanitized objective: re.sub removes every character outside the
ASCII range 0x00 to 0x7F. -/
def objective_pinecone_compat (objective : String) : String :=
  String.mk (objective.data.filter (fun c => c.toNat ≤ 127))

/-- One record of an upsert call: the id string and the metadata mapping
with keys task and result. -/
structure UpsertRecord where
  id : String
  metadata_task : String
  metadata_result : String
deriving DecidableEq, Repr

/-- The upsert invocation as the code builds it: the list of records and the
keyword arguments passed besides them. -/
structure UpsertCall where
  records : List UpsertRecord
  kwargs : List (String × String)
deriving DecidableEq, Repr

/-- Step 2 of the loop body: the code formats result_id as result_ followed
by the task id, embeds the result text, and calls
index.upsert([(result_id, vector, {task, result})], nmespace=OBJECTIVE_PINECONE_COMPAT).
The keyword is written nmespace in the source, so that is the keyword
recorded here; the vector is abstract and omitted. -/
def upsert_call (objective : String) (task : Task) (result : String) : UpsertCall :=
  let result_id := "result_" ++
    (match task.task_id with
     | TaskId.int n => toString n
     | TaskId.str s => s)
  { records := [{ id := result_id, metadata_task := task.task_name,
                  metadata_result := result }],
    kwargs := [("nmespace", objective_pinecone_compat objective)] }

/-- Operations of the Task Store FIFO fragment. -/
inductive StoreOp where
  | append (t : Task)
  | popFront

/-- Run a sequence of append and popleft operations, collecting the popped
tasks in order; fails as soon as a popleft hits an empty store. -/
def runOps (s : SingleTaskListStorage) :
    List StoreOp → Except String (SingleTaskListStorage × List Task)
  | [] => Except.ok (s, [])
  | StoreOp.append t :: ops => runOps (s.append t) ops
  | StoreOp.popFront :: ops =>
    match s.popleft with
    | Except.error e => Except.error e
    | Except.ok (t, s1) =>
      match runOps s1 ops with
      | Except.error e => Except.error e
      | Except.ok (s2, outs) => Except.ok (s2, t :: outs)

/-- The tasks appended by a sequence of store operations, in order. -/
def appendedOf : List StoreOp → List Task
  | [] => []
  | StoreOp.append t :: ops => t :: appendedOf ops
  | StoreOp.popFront :: ops => appendedOf ops

/-- The ids returned by n successive next_task_id calls. -/
def nextIds (s : SingleTaskListStorage) : Nat → List Nat
  | 0 => []
  | n + 1 =>
    let p := s.next_task_id
    p.1 :: nextIds p.2 n

/-- Store state after the generation step of iteration 1 of a run whose
INITIAL_TASK is the literal string INITIAL_TASK. -/
def cexStore1 : SingleTaskListStorage :=
  ⟨[⟨TaskId.int 2, "Define problem"⟩, ⟨TaskId.int 3, "Gather resources"⟩,
    ⟨TaskId.int 4, "Develop plan"⟩], 4⟩

/-- Tree state after the generation step of iteration 1 of the same run. -/
def cexTree1 : ThoughtTree :=
  ⟨some (Thought.mk "INITIAL_TASK"
    [Thought.mk "Define problem" [], Thought.mk "Gather resources" [],
     Thought.mk "Develop plan" []])⟩

/-- Root after iteration 2: all six children hang under the root, and the
selected thought Develop plan is still childless. -/
def cexRoot2 : Thought :=
  Thought.mk "INITIAL_TASK"
    [Thought.mk "Define problem" [], Thought.mk "Gather resources" [],
     Thought.mk "Develop plan" [], Thought.mk "Define problem" [],
     Thought.mk "Gather resources" [], Thought.mk "Develop plan" []]

/-- Store state after the generation step of iteration 2 of the same run. -/
def cexStore2 : SingleTaskListStorage :=
  ⟨[⟨TaskId.int 3, "Gather resources"⟩, ⟨TaskId.int 4, "Develop plan"⟩,
    ⟨TaskId.int 5, "Define problem"⟩, ⟨TaskId.int 6, "Gather resources"⟩,
    ⟨TaskId.int 7, "Develop plan"⟩], 7⟩

/-- The tree root(A with children B, C) used around the traversal claims. -/
def exTreeABC : ThoughtTree :=
  ⟨some (Thought.mk "A" [Thought.mk "B" [], Thought.mk "C" []])⟩

/-- A sample operation sequence: append A, append B, pop, append C, pop. -/
def opsEx : List StoreOp :=
  [StoreOp.append ⟨TaskId.int 1, "A"⟩, StoreOp.append ⟨TaskId.int 2, "B"⟩,
   StoreOp.popFront, StoreOp.append ⟨TaskId.int 3, "C"⟩, StoreOp.popFront]

/-- Every thought has at least one node. -/
theorem thoughtSize_pos (th : Thought) : 0 < thoughtSize th := by
  cases th with
  | mk n cs => simp only [thoughtSize]; omega

/-- The size of a member bounds the size of the list. -/
theorem thoughtSize_le_of_mem {c : Thought} {cs : List Thought} (h : c ∈ cs) :
    thoughtSize c ≤ thoughtSizeList cs := by
  induction cs with
  | nil => cases h
  | cons x xs ih =>
    simp only [thoughtSizeList]
    rcases List.mem_cons.mp h with h1 | h2
    · subst h1; omega
    · have := ih h2; omega

/-- A child (or deeper member of the children list) is strictly smaller than
the whole thought. -/
theorem thoughtSize_lt_of_mem {c : Thought} (n : String) {cs : List Thought}
    (h : c ∈ cs) : thoughtSize c < thoughtSize (Thought.mk n cs) := by
  have := thoughtSize_le_of_mem h
  simp only [thoughtSize]; omega

/-- Membership from getLast?. -/
theorem mem_of_getLast_opt {α : Type} {l : List α} {c : α}
    (h : l.getLast? = some c) : c ∈ l := by
  rcases List.mem_getLast?_eq_getLast (Option.mem_def.mpr h) with ⟨hne, hc⟩
  rw [hc]
  exact List.getLast_mem hne

/-- lastDescendF ignores the fuel once it is at least the size. -/
theorem lastDescendF_stable : ∀ (f1 : Nat) (th : Thought) (f2 : Nat),
    thoughtSize th ≤ f1 → thoughtSize th ≤ f2 →
    lastDescendF f1 th = lastDescendF f2 th := by
  intro f1
  induction f1 with
  | zero =>
    intro th f2 h1 _
    exact absurd h1 (by have := thoughtSize_pos th; omega)
  | succ f1 ih =>
    intro th f2 h1 h2
    cases th with
    | mk n cs =>
      cases f2 with
      | zero =>
        exact absurd h2 (by have := thoughtSize_pos (Thought.mk n cs); omega)
      | succ f2 =>
        simp only [lastDescendF]
        cases hL : cs.getLast? with
        | none => rfl
        | some c =>
          have hmem : c ∈ cs := mem_of_getLast_opt hL
          have hlt := thoughtSize_lt_of_mem n hmem
          exact ih c f2 (by omega) (by omega)

/-- With enough fuel, lastDescendF reaches a leaf. -/
theorem lastDescendF_children : ∀ (fuel : Nat) (th : Thought),
    thoughtSize th ≤ fuel → (lastDescendF fuel th).children = [] := by
  intro fuel
  induction fuel with
  | zero =>
    intro th h
    exact absurd h (by have := thoughtSize_pos th; omega)
  | succ fuel ih =>
    intro th h
    cases th with
    | mk n cs =>
      simp only [lastDescendF]
      cases hL : cs.getLast? with
      | none =>
        have hnil : cs = [] := List.getLast?_eq_none_iff.mp hL
        subst hnil
        rfl
      | some c =>
        have hmem : c ∈ cs := mem_of_getLast_opt hL
        have hlt := thoughtSize_lt_of_mem n hmem
        exact ih c (by omega)

/-- The leaf lastDescend reaches has no children. -/
theorem lastDescend_children (th : Thought) : (lastDescend th).children = [] :=
  lastDescendF_children (thoughtSize th) th le_rfl

/-- lastDescend of a leaf is the leaf itself. -/
theorem lastDescend_leaf (n : String) : lastDescend (Thought.mk n []) = Thought.mk n [] :=
  rfl

/-- lastDescend descends into the last child. -/
theorem lastDescend_step {cs : List Thought} (n : String) (hne : cs ≠ []) :
    lastDescend (Thought.mk n cs) = lastDescend (cs.getLast hne) := by
  unfold lastDescend
  obtain ⟨k, hk⟩ : ∃ k, thoughtSize (Thought.mk n cs) = k + 1 :=
    ⟨thoughtSize (Thought.mk n cs) - 1,
     by have := thoughtSize_pos (Thought.mk n cs); omega⟩
  rw [hk]
  simp only [lastDescendF]
  rw [List.getLast?_eq_getLast_of_ne_nil hne]
  apply lastDescendF_stable
  · have := thoughtSize_lt_of_mem n (List.getLast_mem hne)
    omega
  · exact le_rfl

/-- Reversing the some-mapped children exposes the last child on top. -/
theorem reverse_map_some_cons {cs : List Thought} (hne : cs ≠ []) :
    (cs.map some).reverse
      = some (cs.getLast hne) :: (cs.dropLast.reverse.map some) := by
  have h2 : cs.reverse = cs.getLast hne :: cs.dropLast.reverse := by
    conv_lhs => rw [← List.dropLast_append_getLast hne]
    rw [List.reverse_append]
    rfl
  rw [← List.map_reverse, h2]
  rfl

/-- The while loop of get_next_thought, started on a thought with enough
fuel, returns the leaf reached by descending into last children. -/
theorem gntF_cons : ∀ (fuel : Nat) (th : Thought) (rest : List (Option Thought)),
    thoughtSize th ≤ fuel →
    gntLoopF fuel (some th :: rest) = Except.ok (some (lastDescend th)) := by
  intro fuel
  induction fuel with
  | zero =>
    intro th rest h
    exact absurd h (by have := thoughtSize_pos th; omega)
  | succ fuel ih =>
    intro th rest h
    cases th with
    | mk n cs =>
      cases cs with
      | nil => rfl
      | cons c cs2 =>
        have hne : (c :: cs2) ≠ [] := List.cons_ne_nil c cs2
        rw [lastDescend_step n hne]
        show gntLoopF fuel (((c :: cs2).map some).reverse ++ rest) = _
        rw [reverse_map_some_cons hne, List.cons_append]
        apply ih
        have := thoughtSize_lt_of_mem n (List.getLast_mem hne)
        omega

/-- get_next_thought on a tree with a root returns the last-descend leaf. -/
theorem get_next_thought_some (th : Thought) :
    get_next_thought ⟨some th⟩ = Except.ok (some (lastDescend th)) := by
  apply gntF_cons
  show thoughtSize th ≤ thoughtSize th + stackMeasure []
  simp [stackMeasure]

/-- Folding add_child over a list of names appends the corresponding leaves
to the children, in order. -/
theorem foldl_add_child (names : List String) (r : Thought) :
    names.foldl (fun cur nm => cur.add_child (Thought.mk nm [])) r
      = Thought.mk r.task_name
          (r.children ++ names.map (fun nm => Thought.mk nm [])) := by
  induction names generalizing r with
  | nil => cases r; simp [Thought.task_name, Thought.children]
  | cons nm rest ih =>
    cases r with
    | mk n cs =>
      simp only [List.foldl_cons]
      rw [ih]
      simp [Thought.add_child, Thought.task_name, Thought.children]

/-- append_generated appends tasks with successive ids counter+1, counter+2,
and so on, and advances the counter by the number of names. -/
theorem append_generated_spec : ∀ (names : List String) (s : SingleTaskListStorage),
    append_generated s names
      = { tasks := s.tasks ++ tasksFor s.task_id_counter names,
          task_id_counter := s.task_id_counter + names.length } := by
  intro names
  induction names with
  | nil =>
    intro s
    simp [append_generated, tasksFor]
  | cons nm rest ih =>
    intro s
    show append_generated
        ⟨s.tasks ++ [⟨TaskId.int (s.task_id_counter + 1), nm⟩], s.task_id_counter + 1⟩ rest = _
    rw [ih]
    simp only [tasksFor, List.append_assoc, List.cons_append, List.nil_append,
      List.length_cons, SingleTaskListStorage.mk.injEq]
    exact ⟨trivial, by omega⟩

/-- Splitting on newlines when none occurs keeps the line whole. -/
theorem splitNl_of_no_newline : ∀ (l : List Char),
    l.contains '\n' = false → splitNl l = [l] := by
  intro l
  induction l with
  | nil => intro _; rfl
  | cons c rest ih =>
    intro h
    simp only [List.contains_cons, Bool.or_eq_false_iff, beq_eq_false_iff_ne] at h
    have hc : ¬(c = '\n') := fun hcc => h.1 hcc.symm
    simp only [splitNl, if_neg hc, ih h.2]

/-- The parsing fold of prioritization_agent is the filterMap of the
specification-side line parser. -/
theorem prioritization_fold (lines : List (List Char)) :
    ∀ acc : List Task,
      lines.foldl prioritization_step acc = acc ++ lines.filterMap parse_line := by
  induction lines with
  | nil => intro acc; simp
  | cons ts rest ih =>
    intro acc
    simp only [List.foldl_cons, List.filterMap_cons]
    rcases hsd : splitDotOnce (pystrip ts) with _ | ⟨p1, _ | ⟨p2, _ | ⟨p3, tl⟩⟩⟩ <;>
      simp only [prioritization_step, parse_line, hsd] <;> rw [ih] <;> simp

/-- Running append and popleft operations from any starting store: the popped
tasks followed by the remaining queue are the starting queue followed by the
appended tasks, in order. -/
theorem runOps_spec : ∀ (ops : List StoreOp) (s s2 : SingleTaskListStorage)
    (outs : List Task), runOps s ops = Except.ok (s2, outs) →
    outs ++ s2.tasks = s.tasks ++ appendedOf ops := by
  intro ops
  induction ops with
  | nil =>
    intro s s2 outs h
    simp only [runOps, Except.ok.injEq, Prod.mk.injEq] at h
    rw [← h.1, ← h.2]
    simp [appendedOf]
  | cons op rest ih =>
    intro s s2 outs h
    cases op with
    | append t =>
      simp only [runOps] at h
      have key := ih _ _ _ h
      simp only [SingleTaskListStorage.append] at key
      rw [key]
      simp [appendedOf]
    | popFront =>
      simp only [runOps] at h
      cases hts : s.tasks with
      | nil =>
        rw [SingleTaskListStorage.popleft, hts] at h
        cases h
      | cons t ts2 =>
        rw [SingleTaskListStorage.popleft, hts] at h
        simp only at h
        cases hr : runOps { s with tasks := ts2 } rest with
        | error e => rw [hr] at h; cases h
        | ok p =>
          obtain ⟨s3, outs3⟩ := p
          rw [hr] at h
          simp only [Except.ok.injEq, Prod.mk.injEq] at h
          have key := ih _ _ _ hr
          rw [← h.1, ← h.2]
          simp only [appendedOf, hts, List.cons_append, key]

/-- The ids handed out by successive next_task_id calls count up from the
current counter. -/
theorem nextIds_spec : ∀ (n : Nat) (s : SingleTaskListStorage),
    nextIds s n = (List.range n).map (fun i => s.task_id_counter + 1 + i) := by
  intro n
  induction n with
  | zero => intro s; rfl
  | succ n ih =>
    intro s
    show (s.task_id_counter + 1) :: nextIds ⟨s.tasks, s.task_id_counter + 1⟩ n
        = (List.range (n + 1)).map (fun i => s.task_id_counter + 1 + i)
    rw [ih, List.range_succ_eq_map, List.map_cons, List.map_map]
    congr 1
    exact List.map_congr_left
      (fun i _ => by simp only [Function.comp_apply]; omega)

/-- Claim C1, amended: in a loop iteration the selected thought is the
last-descend leaf, the head task is popped, and every generated name is
added as a child of the ROOT thought (task_creation_agent reads
thought_tree.root) from the root name, while a task with the next
successive id is appended per generated name. -/
theorem C1_children_under_root (store : SingleTaskListStorage)
    (tree : ThoughtTree) (r : Thought) (t0 : Task) (rest : List Task)
    (hroot : tree.root = some r) (htasks : store.tasks = t0 :: rest) :
    loop_iteration_gen store tree
      = Except.ok (some (lastDescend r), t0,
          { tasks := rest ++
              tasksFor store.task_id_counter (generate_tasks_based_on_thought r),
            task_id_counter := store.task_id_counter +
              (generate_tasks_based_on_thought r).length },
          { root := some (Thought.mk r.task_name
              (r.children ++ (generate_tasks_based_on_thought r).map
                (fun nm => Thought.mk nm []))) }) := by
  obtain ⟨rt⟩ := tree
  have hroot2 : rt = some r := hroot
  subst hroot2
  obtain ⟨ts, c⟩ := store
  have htasks2 : ts = t0 :: rest := htasks
  subst htasks2
  unfold loop_iteration_gen
  rw [get_next_thought_some]
  simp only [SingleTaskListStorage.popleft]
  unfold task_creation_agent
  simp only
  rw [foldl_add_child, append_generated_spec]

/-- Claim C1 witness: scenario with initial task Define problem; after the
generation step of iteration 1, the store holds exactly the three generated
names with ids 2, 3, 4 (id 1 consumed by the popped initial task) and the
root has exactly those three children. -/
theorem C1_witness :
    loop_iteration_gen (initial_storage "Define problem")
        (initial_tree "Define problem")
      = Except.ok (some (Thought.mk "Define problem" []),
          ⟨TaskId.int 1, "Define problem"⟩,
          ⟨[⟨TaskId.int 2, "Identify key components"⟩,
            ⟨TaskId.int 3, "Determine constraints"⟩,
            ⟨TaskId.int 4, "Set goals"⟩], 4⟩,
          ⟨some (Thought.mk "Define problem"
            [Thought.mk "Identify key components" [],
             Thought.mk "Determine constraints" [],
             Thought.mk "Set goals" []])⟩) :=
  C1_children_under_root (initial_storage "Define problem")
    (initial_tree "Define problem") (Thought.mk "Define problem" [])
    ⟨TaskId.int 1, "Define problem"⟩ [] rfl rfl

/-- Claim C1 counterexample: with INITIAL_TASK the literal string
INITIAL_TASK, iteration 2 selects the leaf Develop plan, for which the
policy returns three names, yet no child with any of those names is added
anywhere, in particular not under the selected thought: all new children
hang under the root and carry the names generated from the root. -/
theorem C1_counterexample :
    loop_iteration_gen (initial_storage "INITIAL_TASK")
        (initial_tree "INITIAL_TASK")
      = Except.ok (some (Thought.mk "INITIAL_TASK" []),
          ⟨TaskId.int 1, "INITIAL_TASK"⟩, cexStore1, cexTree1)
    ∧ loop_iteration_gen cexStore1 cexTree1
      = Except.ok (some (Thought.mk "Develop plan" []),
          ⟨TaskId.int 2, "Define problem"⟩, cexStore2, ⟨some cexRoot2⟩)
    ∧ generate_tasks_based_on_thought (Thought.mk "Develop plan" [])
      = ["Outline steps", "Assign responsibilities", "Set timeline"]
    ∧ ¬ "Outline steps" ∈ namesOf cexRoot2 :=
  ⟨rfl, rfl, rfl, by decide⟩

/-- Claim C2: the prioritization step splits the reply into lines, keeps
exactly the lines splitting into two parts on the first dot (both parts
stripped), drops every other line, and replaces the whole store with the
parsed list in order, the counter having advanced by the one next_task_id
call used for the prompt; the concrete scenario yields exactly three tasks
with string ids 2, 3, 4. -/
theorem C2_prioritization_parsing :
    (∀ (s : SingleTaskListStorage) (response : String),
        (prioritization_agent s response).tasks
          = (splitNl response.data).filterMap parse_line
        ∧ (prioritization_agent s response).task_id_counter
          = s.task_id_counter + 1)
    ∧ prioritization_agent ⟨[⟨TaskId.int 1, "Old"⟩], 1⟩
        "2. Pack bags\n3. Book flight\nNOISE LINE\n4. Confirm hotel"
      = ⟨[⟨TaskId.str "2", "Pack bags"⟩, ⟨TaskId.str "3", "Book flight"⟩,
          ⟨TaskId.str "4", "Confirm hotel"⟩], 2⟩ := by
  refine ⟨fun s response => ⟨?_, rfl⟩, by rfl⟩
  show prioritization_parse response = _
  simp only [prioritization_parse]
  by_cases h : response.data.contains '\n' = true
  · rw [if_pos h, prioritization_fold]
    simp
  · have hf : response.data.contains '\n' = false := by
      cases hx : response.data.contains '\n'
      · rfl
      · exact absurd hx h
    rw [if_neg h, splitNl_of_no_newline response.data hf, prioritization_fold]
    simp

/-- Claim C3 counterexample: executing a thought records nothing (a full
generation step on root(A with B, C) leaves the tree unchanged, since no
explored mark exists in the data model), and get_next_thought keeps
returning the same leaf C, never none, however many leaves have been
executed. -/
theorem C3_counterexample :
    task_creation_agent exTreeABC = Except.ok ([], exTreeABC)
    ∧ get_next_thought exTreeABC = Except.ok (some (Thought.mk "C" []))
    ∧ get_next_thought exTreeABC ≠ Except.ok none := by
  refine ⟨rfl, rfl, fun hcontra => ?_⟩
  rw [show get_next_thought exTreeABC = Except.ok (some (Thought.mk "C" []))
    from rfl] at hcontra
  exact Option.some_ne_none _ (Except.ok.inj hcontra)

/-- Claim C3, amended: Thought carries no explored flag; get_next_thought is
a pure function returning the last-descend leaf of any rooted tree and never
none, so on root(A with B, C) it returns C (because C was added last, not
because B is marked), returns C again on every later call, and the loop
never observes the tree as exhausted; a generation step on that tree leaves
it unchanged. -/
theorem C3_no_explored_flag :
    (∀ th : Thought,
        get_next_thought ⟨some th⟩ = Except.ok (some (lastDescend th))
        ∧ get_next_thought ⟨some th⟩ ≠ Except.ok none)
    ∧ get_next_thought exTreeABC = Except.ok (some (Thought.mk "C" []))
    ∧ task_creation_agent exTreeABC = Except.ok ([], exTreeABC) := by
  refine ⟨fun th => ⟨get_next_thought_some th, fun hcontra => ?_⟩, rfl, rfl⟩
  rw [get_next_thought_some th] at hcontra
  exact Option.some_ne_none _ (Except.ok.inj hcontra)

/-- Claim C4 counterexample: calling add_thought with no parent on a tree
that already has root A neither fails nor preserves the root: it silently
replaces A by the new thought B. -/
theorem C4_counterexample :
    ((ThoughtTree.add_thought_noparent ⟨none⟩ "A").1.root
      = some (Thought.mk "A" []))
    ∧ (((ThoughtTree.add_thought_noparent ⟨none⟩ "A").1.add_thought_noparent
        "B").1.root = some (Thought.mk "B" [])) :=
  ⟨rfl, rfl⟩

/-- Claim C4, amended: add_thought with no parent unconditionally installs
the new thought as root, whatever the current root is; the tree always has
at most one root, but an existing root is silently discarded rather than
the call failing. -/
theorem C4_noparent_overwrites :
    ∀ (t : ThoughtTree) (nm : String),
      (t.add_thought_noparent nm).1.root = some (Thought.mk nm [])
      ∧ (t.add_thought_noparent nm).2 = Thought.mk nm [] :=
  fun _ _ => ⟨rfl, rfl⟩

/-- Claim C5: on every tree with a root, get_next_thought returns the leaf
obtained by the stack traversal that pops the most recently pushed thought
and pushes all children of a non-leaf, namely the leaf reached by always
descending into the last child; the returned thought has no children. -/
theorem C5_returns_dfs_leaf (t : ThoughtTree) (th : Thought)
    (h : t.root = some th) :
    get_next_thought t = Except.ok (some (lastDescend th))
    ∧ (lastDescend th).children = [] := by
  obtain ⟨rt⟩ := t
  have h2 : rt = some th := h
  subst h2
  exact ⟨get_next_thought_some th, lastDescend_children th⟩

/-- Claim C5 witness at a concrete two-leaf tree. -/
theorem C5_witness :
    get_next_thought
        ⟨some (Thought.mk "Root" [Thought.mk "L1" [], Thought.mk "L2" []])⟩
      = Except.ok (some (lastDescend
          (Thought.mk "Root" [Thought.mk "L1" [], Thought.mk "L2" []])))
    ∧ (lastDescend
        (Thought.mk "Root" [Thought.mk "L1" [], Thought.mk "L2" []])).children
      = [] :=
  C5_returns_dfs_leaf
    ⟨some (Thought.mk "Root" [Thought.mk "L1" [], Thought.mk "L2" []])⟩ _ rfl

/-- Claim C6: on the empty tree (no root) the source puts None on the stack,
pops it and evaluates None.children, raising AttributeError instead of
returning none; is_thought_tree_empty does report the tree as empty. -/
theorem C6_empty_tree_raises :
    get_next_thought ⟨none⟩ = Except.error "AttributeError"
    ∧ is_thought_tree_empty ⟨none⟩ = true :=
  ⟨rfl, rfl⟩

/-- Claim C7: the persisted record has id result_ followed by the task id
and metadata {task, result} as claimed, but the sanitized objective is
passed under the misspelled keyword nmespace, not namespace, so the record
is not written under the sanitized-objective namespace. -/
theorem C7_upsert_record_and_namespace :
    upsert_call "Plan a tripé" ⟨TaskId.int 1, "Define problem"⟩ "R"
      = ⟨[⟨"result_1", "Define problem", "R"⟩], [("nmespace", "Plan a trip")]⟩
    ∧ ((upsert_call "Plan a tripé" ⟨TaskId.int 1, "Define problem"⟩ "R").kwargs.map
        Prod.fst = ["nmespace"])
    ∧ objective_pinecone_compat "Plan a tripé" = "Plan a trip" := by
  refine ⟨by decide, rfl, by decide⟩

/-- Claim C8 counterexample: a single prioritization run with reply
"2. A\n2. B" leaves the store holding two tasks with the same task_id. -/
theorem C8_counterexample :
    (prioritization_agent ⟨[], 0⟩ "2. A\n2. B").tasks
      = [⟨TaskId.str "2", "A"⟩, ⟨TaskId.str "2", "B"⟩]
    ∧ ((prioritization_agent ⟨[], 0⟩ "2. A\n2. B").tasks.map Task.task_id)
      = [TaskId.str "2", TaskId.str "2"] :=
  ⟨rfl, rfl⟩

/-- Claim C8, amended: ids allocated through next_task_id are the successive
integers counter+1, counter+2, ..., strictly increasing and never repeated,
so tasks whose ids come from next_task_id never share or reuse an id;
replace and the prioritization run install oracle-supplied string ids with
no uniqueness check. -/
theorem C8_next_ids_never_repeat :
    ∀ (s : SingleTaskListStorage) (n : Nat),
      nextIds s n = (List.range n).map (fun i => s.task_id_counter + 1 + i)
      ∧ (nextIds s n).Pairwise (· < ·) := by
  intro s n
  refine ⟨nextIds_spec n s, ?_⟩
  rw [nextIds_spec n s]
  exact List.Pairwise.map _ (fun a b hab => by omega) (List.pairwise_lt_range n)

/-- Claim C9: for every sequence of append and pop-front operations run from
an empty store, the popped tasks followed by the final queue are exactly the
appended tasks in order; hence pops return tasks in FIFO order (the popped
list is a prefix of the appended list) and every popped task was previously
appended. -/
theorem C9_fifo (ops : List StoreOp) (c : Nat) (s2 : SingleTaskListStorage)
    (outs : List Task) (h : runOps ⟨[], c⟩ ops = Except.ok (s2, outs)) :
    outs ++ s2.tasks = appendedOf ops
    ∧ outs = (appendedOf ops).take outs.length
    ∧ ∀ t ∈ outs, t ∈ appendedOf ops := by
  have key := runOps_spec ops ⟨[], c⟩ s2 outs h
  simp only [List.nil_append] at key
  refine ⟨key, ?_, ?_⟩
  · rw [← key, List.take_left]
  · intro t ht
    rw [← key]
    exact List.mem_append_left _ ht

/-- Claim C9 witness on the sample sequence append A, append B, pop,
append C, pop. -/
theorem C9_witness :
    ([⟨TaskId.int 1, "A"⟩, ⟨TaskId.int 2, "B"⟩] : List Task)
        ++ (⟨[⟨TaskId.int 3, "C"⟩], 0⟩ : SingleTaskListStorage).tasks
      = appendedOf opsEx
    ∧ ([⟨TaskId.int 1, "A"⟩, ⟨TaskId.int 2, "B"⟩] : List Task)
      = (appendedOf opsEx).take
          ([⟨TaskId.int 1, "A"⟩, ⟨TaskId.int 2, "B"⟩] : List Task).length
    ∧ ∀ t ∈ ([⟨TaskId.int 1, "A"⟩, ⟨TaskId.int 2, "B"⟩] : List Task),
        t ∈ appendedOf opsEx :=
  C9_fifo opsEx 0 ⟨[⟨TaskId.int 3, "C"⟩], 0⟩ _ rfl

/-- Claim C10: replace rebuilds the queue but never touches the id counter,
so the next next_task_id call returns the same value it would have returned
without the replace, whatever ids the new tasks carry. -/
theorem C10_replace_preserves_counter :
    ∀ (s : SingleTaskListStorage) (ts : List Task),
      (s.replace ts).task_id_counter = s.task_id_counter
      ∧ (s.replace ts).next_task_id.1 = s.next_task_id.1 :=
  fun _ _ => ⟨rfl, rfl⟩

end BabyMonkeyAGI
